import Mathlib

/-!
Article service (`main.go`): a CRUD front end over one MongoDB collection.

The five gin handlers of `main.go` are embedded as pure functions from the
collection state and the request to an `Outcome`: the HTTP response, the
collection afterwards and the store calls that were issued.

The collaborators the handlers call are modelled next to them:

* `primitive.ObjectID`, `ObjectIDFromHex` and `ObjectID.Hex` of the MongoDB
  driver (`bson/primitive`);
* `encoding/json` decoding into the `Article` struct, as run by the gin call
  `BindJSON` (`bindJSON`), with `ObjectID.UnmarshalJSON` of the driver on the
  bytes of the id member (`unmarshalObjectID`);
* `bson.Marshal` of an `Article` under its struct tags (`marshal`);
* the collection operations `InsertOne`, `FindOne`, `Find`, `UpdateOne`
  and `DeleteOne` on a collection with the unique index on `_id`.

The store is sequential and reliable here: the only store errors are the
ones the server raises on the data (duplicate key, change of `_id`). Library
errors are kept as values; an error response carries the `Error()` text of
its error. The
identifier the driver generates for an insert (`primitive.NewObjectID()`) is an
input of `createArticle`.

A path names a document through the parse the handlers run on it:
`(ObjectIDFromHex id).1`, the zero identifier when the path is malformed.
-/

namespace MongoArticle

/-! ## Identifiers -/

/-- ObjectID is `primitive.ObjectID`, a 12-byte array, held as its big-endian value. -/
abbrev ObjectID := Fin (2 ^ 96)

/-- NilObjectID is the zero value of `primitive.ObjectID`. -/
def NilObjectID : ObjectID := ⟨0, by decide⟩

/-- Article is the struct of `main.go`; its `bson` tags are applied by `marshal`. -/
structure Article where
  ID : ObjectID
  Title : String
  Content : String
  Author : String
deriving DecidableEq, Repr

/-- An error of the decoding libraries (`encoding/json`, `encoding/hex`,
`bson/primitive`). A handler that answers with one puts its `Error()` text in
the response; the text itself is the library's. -/
inductive DecodeError where
  | InvalidBody (msg : String)
  | UnmarshalTypeError (Value : String) (Field : Option String)
  | NotExtendedJSON
  | InvalidLength (len : Nat)
  | ErrInvalidHex
  | InvalidByteError
deriving DecidableEq, Repr

/-- An error the server raises on an operation. -/
inductive StoreError where
  | DuplicateKey (id : ObjectID)
  | ImmutableField
deriving DecidableEq, Repr

/-- Value of one hexadecimal digit (`fromHexChar` of `encoding/hex`). -/
def fromHexChar (c : Char) : Option Nat :=
  if '0' ≤ c ∧ c ≤ '9' then some (c.toNat - '0'.toNat)
  else if 'a' ≤ c ∧ c ≤ 'f' then some (c.toNat - 'a'.toNat + 10)
  else if 'A' ≤ c ∧ c ≤ 'F' then some (c.toNat - 'A'.toNat + 10)
  else none

/-- Big-endian value of a run of hexadecimal digits, `none` at the first
character that is not one (`hex.Decode`). -/
def hexDecode : List Char → Nat → Option Nat
  | [], acc => some acc
  | c :: cs, acc =>
    match fromHexChar c with
    | none => none
    | some d => hexDecode cs (acc * 16 + d)

/-- The function `primitive.ObjectIDFromHex`: the identifier and the error, as
the Go function returns them. A string that is not 24 bytes long, or holds a byte
that is not a hexadecimal digit, gives `NilObjectID` and an error. -/
def ObjectIDFromHex (s : String) : ObjectID × Option DecodeError :=
  if s.utf8ByteSize ≠ 24 then (NilObjectID, some .ErrInvalidHex)
  else
    match hexDecode s.toList 0 with
    | none => (NilObjectID, some .InvalidByteError)
    | some v => (⟨v % 2 ^ 96, Nat.mod_lt _ (by decide)⟩, none)

/-- Lower-case hexadecimal digit of a value below 16 (`hextable`). -/
def hexDigit (n : Nat) : Char :=
  if n < 10 then Char.ofNat (48 + n) else Char.ofNat (87 + n)

/-- The last `n` hexadecimal digits of `v`, most significant first. -/
def encodeHex : Nat → Nat → List Char
  | 0, _ => []
  | n + 1, v => encodeHex n (v / 16) ++ [hexDigit (v % 16)]

/-- The method `ObjectID.Hex`: the 24 lower-case hexadecimal digits of the
identifier; it is also how an identifier is written in a JSON response. -/
def Hex (id : ObjectID) : String := String.mk (encodeHex 24 id.val)

/-! ## Request bodies and their decoding -/

/-- A parsed JSON value. A member of an object is its key, the bytes of its
value as they stand in the text, and the value these bytes parse to: the
decoder hands the bytes to `ObjectID.UnmarshalJSON`. -/
inductive Json where
  | null
  | bool (b : Bool)
  | num (n : Int)
  | str (s : String)
  | arr (items : List Json)
  | obj (members : List (String × List Nat × Json))

/-- A request body: text that is not JSON (with the message of the parser), or
the JSON value it holds. -/
inductive Body where
  | malformed (err : String)
  | json (v : Json)

/-- The UTF-8 bytes of a character. -/
def utf8Char (c : Char) : List Nat :=
  if c.toNat ≤ 0x7F then [c.toNat]
  else if c.toNat ≤ 0x7FF then [0xC0 + c.toNat / 64, 0x80 + c.toNat % 64]
  else if c.toNat ≤ 0xFFFF then
    [0xE0 + c.toNat / 4096, 0x80 + c.toNat / 64 % 64, 0x80 + c.toNat % 64]
  else
    [0xF0 + c.toNat / 262144, 0x80 + c.toNat / 4096 % 64, 0x80 + c.toNat / 64 % 64,
      0x80 + c.toNat % 64]

/-- The UTF-8 bytes of a text. -/
def utf8 (s : String) : List Nat := (s.toList.map utf8Char).flatten

/-- The member `"key": "s"` of a body, for a string `s` that is written without escapes. -/
def strMember (key s : String) : String × List Nat × Json :=
  (key, 34 :: utf8 s ++ [34], .str s)

/-- The identifier made of the given 12 bytes, first byte first (`copy(id[:], b)`). -/
def objectIDOfBytes (b : List Nat) : ObjectID :=
  ⟨(b.foldl (fun acc x => acc * 256 + x % 256) 0) % 2 ^ 96, Nat.mod_lt _ (by decide)⟩

/-- The name `encoding/json` gives the kind of a value in its type errors. -/
def Json.kind : Json → String
  | .null => "null"
  | .bool _ => "bool"
  | .num _ => "number"
  | .str _ => "string"
  | .arr _ => "array"
  | .obj _ => "object"

/-- The string form accepted by `ObjectID.UnmarshalJSON`: the empty string
stands for `NilObjectID`, any other string must be 24 hexadecimal digits. -/
def objectIDFromString (str : String) : Except DecodeError ObjectID :=
  if str.utf8ByteSize = 0 then .ok NilObjectID
  else if str.utf8ByteSize ≠ 24 then .error (.InvalidLength str.utf8ByteSize)
  else
    match hexDecode str.toList 0 with
    | none => .error .InvalidByteError
    | some v => .ok ⟨v % 2 ^ 96, Nat.mod_lt _ (by decide)⟩

/-- The method `ObjectID.UnmarshalJSON` on the bytes `b` of a value and the
value `v` they parse to: the bytes `null` leave the identifier as it is; a
value of exactly 12 bytes is copied as it stands (`case 12: copy(id[:], b)`);
otherwise a string, or an extended-JSON object with a `$oid` string, is read
by `objectIDFromString`, and anything else is an error. -/
def unmarshalObjectID (b : List Nat) (v : Json) (cur : ObjectID) : Except DecodeError ObjectID :=
  if b = utf8 "null" then .ok cur
  else if b.length = 12 then .ok (objectIDOfBytes b)
  else
    match v with
    | .str s => objectIDFromString s
    | .obj members =>
      match members.reverse.lookup "$oid" with
      | some (_, .str s) => objectIDFromString s
      | _ => .error .NotExtendedJSON
    | _ => .error .NotExtendedJSON

/-- Decoding of a JSON value into a Go `string` field: `null` leaves the
field as it is, a JSON string sets it, any other value is a type error. -/
def unmarshalString (field : String) (v : Json) (cur : String) : Except DecodeError String :=
  match v with
  | .null => .ok cur
  | .str s => .ok s
  | other => .error (.UnmarshalTypeError other.kind (some field))

deriving instance DecidableEq for Except

/-- Whether a member key names a struct field: equal up to letter case. -/
def equalFold (key name : String) : Bool :=
  key.toList.map Char.toLower == name.toList.map Char.toLower

/-- Decoding of the members of a JSON object into an `Article`, in order.
A key names a field when it equals the field name up to letter case; other
keys are skipped; a later member overrides an earlier one. A type error on
a string field is kept (the first one) and decoding goes on; an error of
`ObjectID.UnmarshalJSON` ends decoding at once. -/
def bindMembers : List (String × List Nat × Json) → Article → Option DecodeError →
    Except DecodeError Article
  | [], a, none => .ok a
  | [], _, some e => .error e
  | (k, b, v) :: rest, a, saved =>
    if equalFold k "ID" then
      match unmarshalObjectID b v a.ID with
      | .error e => .error e
      | .ok i => bindMembers rest { a with ID := i } saved
    else if equalFold k "Title" then
      match unmarshalString "Title" v a.Title with
      | .error e => bindMembers rest a (saved.orElse fun _ => some e)
      | .ok s => bindMembers rest { a with Title := s } saved
    else if equalFold k "Content" then
      match unmarshalString "Content" v a.Content with
      | .error e => bindMembers rest a (saved.orElse fun _ => some e)
      | .ok s => bindMembers rest { a with Content := s } saved
    else if equalFold k "Author" then
      match unmarshalString "Author" v a.Author with
      | .error e => bindMembers rest a (saved.orElse fun _ => some e)
      | .ok s => bindMembers rest { a with Author := s } saved
    else bindMembers rest a saved

/-- The call `c.BindJSON(&article)` on a zero `Article`: the decoded article,
or the decode error. -/
def bindJSON : Body → Except DecodeError Article
  | .malformed err => .error (.InvalidBody err)
  | .json .null => .ok ⟨NilObjectID, "", "", ""⟩
  | .json (.obj members) => bindMembers members ⟨NilObjectID, "", "", ""⟩ none
  | .json other => .error (.UnmarshalTypeError other.kind none)

/-! ## The document store -/

/-- A document of the `article` collection as this service stores it. -/
structure Doc where
  _id : ObjectID
  title : String
  content : String
  author : String
deriving DecidableEq, Repr

/-- The state of the collection: its documents in store order. -/
abbrev Collection := List Doc

/-- The store keeps a unique index on `_id`: no two documents share an identifier. -/
def Collection.Unique (c : Collection) : Prop := (c.map Doc._id).Nodup

instance (c : Collection) : Decidable c.Unique := by
  unfold Collection.Unique; exact inferInstance

/-- An `Article` as `bson.Marshal` writes it under the struct tags:
`_id,omitempty` leaves the identifier out when it is the zero `ObjectID`. -/
structure BsonArticle where
  _id : Option ObjectID
  title : String
  content : String
  author : String
deriving DecidableEq, Repr

/-- Marshalling of an `Article` for the store (`bson:"_id,omitempty"`,
`bson:"title"`, `bson:"content"`, `bson:"author"`). -/
def marshal (a : Article) : BsonArticle :=
  ⟨if a.ID = NilObjectID then none else some a.ID, a.Title, a.Content, a.Author⟩

/-- A value inside a stored document. -/
inductive BsonValue where
  | objectID (id : ObjectID)
  | string (s : String)
deriving DecidableEq, Repr

/-- A document as a `bson.M`: its fields by name. -/
abbrev BsonM := List (String × BsonValue)

/-- The fields of a stored document. -/
def Doc.toBson (d : Doc) : BsonM :=
  [("_id", .objectID d._id), ("title", .string d.title),
   ("content", .string d.content), ("author", .string d.author)]

/-- The fields of a stored document other than its identifier: an entry of the List response. -/
def Doc.withoutID (d : Doc) : BsonM :=
  [("title", .string d.title), ("content", .string d.content), ("author", .string d.author)]

/-- Decoding of a found document into the `Article` struct (`Decode(&article)`). -/
def Doc.decode (d : Doc) : Article := ⟨d._id, d.title, d.content, d.author⟩

/-- The call `InsertOne`: the driver gives the document the identifier `gen`
(a `primitive.NewObjectID()`) when it has no `_id`; the server refuses an
identifier that is already in the collection. Returns the `InsertedID`. -/
def InsertOne (gen : ObjectID) (c : Collection) (doc : BsonArticle) :
    Except StoreError (ObjectID × Collection) :=
  let id := doc._id.getD gen
  if c.any (fun d => d._id = id) then .error (.DuplicateKey id)
  else .ok (id, c ++ [⟨id, doc.title, doc.content, doc.author⟩])

/-- The call `FindOne` with the filter `{"_id": id}`: the first document with that identifier. -/
def FindOne (c : Collection) (id : ObjectID) : Option Doc :=
  c.find? (fun d => d._id = id)

/-- The call `Find` with the empty filter and a projection that excludes the
fields named in `exclude`, followed by `cursor.All`. -/
def Find (c : Collection) (exclude : List String) : Except StoreError (List BsonM) :=
  .ok (c.map fun d => d.toBson.filter fun kv => !(exclude.contains kv.1))

/-- The counts of an `UpdateOne`. -/
structure UpdateResult where
  MatchedCount : Nat
  ModifiedCount : Nat
deriving DecidableEq, Repr

/-- The call `UpdateOne` with the filter `{"_id": id}` and the update `{"$set": set}`:
the first document with that identifier takes the fields of `set`. The server
refuses a `$set` that would change the `_id` of the matched document. A document
that already holds the values is matched but not modified. -/
def UpdateOne : Collection → ObjectID → BsonArticle →
    Except StoreError (UpdateResult × Collection)
  | [], _, _ => .ok (⟨0, 0⟩, [])
  | d :: rest, id, set =>
    if d._id = id then
      if set._id.isSome ∧ set._id ≠ some d._id then
        .error .ImmutableField
      else
        let d' : Doc := ⟨d._id, set.title, set.content, set.author⟩
        .ok (⟨1, if d' = d then 0 else 1⟩, d' :: rest)
    else
      match UpdateOne rest id set with
      | .error e => .error e
      | .ok (r, rest') => .ok (r, d :: rest')

/-- The call `DeleteOne` with the filter `{"_id": id}`: the first document with
that identifier is removed. Returns the `DeletedCount`. -/
def DeleteOne : Collection → ObjectID → Except StoreError (Nat × Collection)
  | [], _ => .ok (0, [])
  | d :: rest, id =>
    if d._id = id then .ok (1, rest)
    else
      match DeleteOne rest id with
      | .error e => .error e
      | .ok (n, rest') => .ok (n, d :: rest')

/-! ## HTTP responses -/

/-- The text under the `error` key of a response: a text written in the
handler, or the `Error()` text of a library error. -/
inductive ErrorMessage where
  | text (s : String)
  | ofDecode (e : DecodeError)
  | ofStore (e : StoreError)
deriving DecidableEq, Repr

/-- The body of a JSON response. -/
inductive ResponseBody where
  | error (msg : ErrorMessage)
  | id (insertedID : ObjectID)
  | article (a : Article)
  | articles (docs : List BsonM)
  | updated (count : Nat)
  | deleted (count : Nat)
deriving DecidableEq, Repr

/-- An HTTP response: status code and JSON body. -/
structure Response where
  status : Nat
  body : ResponseBody
deriving DecidableEq, Repr

/-- A call issued to the store. -/
inductive StoreCall where
  | InsertOne (doc : BsonArticle)
  | FindOne (id : ObjectID)
  | Find
  | UpdateOne (id : ObjectID) (set : BsonArticle)
  | DeleteOne (id : ObjectID)
deriving DecidableEq, Repr

/-- What a handler does: its response, the collection afterwards and the
store calls it issued. -/
structure Outcome where
  resp : Response
  coll : Collection
  calls : List StoreCall
deriving DecidableEq, Repr

abbrev StatusOK : Nat := 200
abbrev StatusCreated : Nat := 201
abbrev StatusBadRequest : Nat := 400
abbrev StatusNotFound : Nat := 404
abbrev StatusInternalServerError : Nat := 500

/-! ## The handlers of `main.go` -/

/-- Handler `createArticle` (POST /articles). -/
def createArticle (gen : ObjectID) (c : Collection) (body : Body) : Outcome :=
  match bindJSON body with
  | .error err => ⟨⟨StatusBadRequest, .error (.ofDecode err)⟩, c, []⟩
  | .ok article =>
    match InsertOne gen c (marshal article) with
    | .error err =>
      ⟨⟨StatusInternalServerError, .error (.ofStore err)⟩, c, [.InsertOne (marshal article)]⟩
    | .ok (insertedID, c') => ⟨⟨StatusCreated, .id insertedID⟩, c', [.InsertOne (marshal article)]⟩

/-- Handler `getArticle` (GET /articles/:id). The error of `ObjectIDFromHex` is dropped. -/
def getArticle (c : Collection) (id : String) : Outcome :=
  let objID := (ObjectIDFromHex id).1
  match FindOne c objID with
  | none => ⟨⟨StatusNotFound, .error (.text "Article not found")⟩, c, [.FindOne objID]⟩
  | some d => ⟨⟨StatusOK, .article d.decode⟩, c, [.FindOne objID]⟩

/-- Handler `listArticles` (GET /articles), with the projection `{"_id": 0}`. -/
def listArticles (c : Collection) : Outcome :=
  match Find c ["_id"] with
  | .error err => ⟨⟨StatusInternalServerError, .error (.ofStore err)⟩, c, [.Find]⟩
  | .ok articles => ⟨⟨StatusOK, .articles articles⟩, c, [.Find]⟩

/-- Handler `updateArticle` (PUT /articles/:id). The error of `ObjectIDFromHex` is dropped. -/
def updateArticle (c : Collection) (id : String) (body : Body) : Outcome :=
  let objID := (ObjectIDFromHex id).1
  match bindJSON body with
  | .error err => ⟨⟨StatusBadRequest, .error (.ofDecode err)⟩, c, []⟩
  | .ok article =>
    match UpdateOne c objID (marshal article) with
    | .error err =>
      ⟨⟨StatusInternalServerError, .error (.ofStore err)⟩, c,
        [.UpdateOne objID (marshal article)]⟩
    | .ok (result, c') =>
      ⟨⟨StatusOK, .updated result.ModifiedCount⟩, c', [.UpdateOne objID (marshal article)]⟩

/-- Handler `deleteArticle` (DELETE /articles/:id). The error of `ObjectIDFromHex` is dropped. -/
def deleteArticle (c : Collection) (id : String) : Outcome :=
  let objID := (ObjectIDFromHex id).1
  match DeleteOne c objID with
  | .error err => ⟨⟨StatusInternalServerError, .error (.ofStore err)⟩, c, [.DeleteOne objID]⟩
  | .ok (deletedCount, c') => ⟨⟨StatusOK, .deleted deletedCount⟩, c', [.DeleteOne objID]⟩

/-! ## Sequences of requests -/

/-- A request to one of the five routes; a create request carries the
identifier the driver would generate for it. -/
inductive Request where
  | Create (gen : ObjectID) (body : Body)
  | Get (id : String)
  | List
  | Update (id : String) (body : Body)
  | Delete (id : String)

/-- The router of `main`: each request goes to its handler. -/
def handle (c : Collection) : Request → Outcome
  | .Create gen body => createArticle gen c body
  | .Get id => getArticle c id
  | .List => listArticles c
  | .Update id body => updateArticle c id body
  | .Delete id => deleteArticle c id

/-- The collection after a sequence of requests, served one after the other. -/
def run (c : Collection) : List Request → Collection
  | [] => c
  | r :: rest => run (handle c r).coll rest

/-- Number of requests of a sequence that are answered with the given status. -/
def countStatus (status : Nat) (c : Collection) : List Request → Nat
  | [] => 0
  | r :: rest =>
    (if (handle c r).resp.status = status then 1 else 0) + countStatus status (handle c r).coll rest

/-- Whether a request is a create request. -/
def Request.isCreate : Request → Bool
  | .Create _ _ => true
  | _ => false

/-- Whether the driver generates a non-zero identifier for every create request of a sequence. -/
def gensNonZero : List Request → Bool
  | [] => true
  | .Create gen _ :: rest => decide (gen ≠ NilObjectID) && gensNonZero rest
  | _ :: rest => gensNonZero rest

/-- A path string is a well-formed identifier when it is 24 hexadecimal digits. -/
def IsHexID (s : String) : Prop :=
  s.length = 24 ∧ ∀ ch ∈ s.toList, (fromHexChar ch).isSome

instance (s : String) : Decidable (IsHexID s) := by
  unfold IsHexID; exact inferInstance

/-- No stored document has the zero identifier. -/
def Collection.NoZero (c : Collection) : Prop := ∀ d ∈ c, d._id ≠ NilObjectID

instance (c : Collection) : Decidable c.NoZero := by
  unfold Collection.NoZero; exact inferInstance

end MongoArticle

namespace MongoArticle

/-! ## Hexadecimal identifiers -/

theorem fromHexChar_hexDigit (d : Nat) (h : d < 16) : fromHexChar (hexDigit d) = some d := by
  interval_cases d <;> decide

theorem hexDecode_append (xs ys : List Char) (acc : Nat) :
    hexDecode (xs ++ ys) acc = (hexDecode xs acc).bind (hexDecode ys) := by
  induction xs generalizing acc with
  | nil => simp [hexDecode]
  | cons c cs ih =>
    simp only [List.cons_append, hexDecode]
    cases fromHexChar c with
    | none => simp
    | some d => simpa using ih (acc * 16 + d)

theorem hexDecode_encodeHex (n v : Nat) :
    hexDecode (encodeHex n v) 0 = some (v % 16 ^ n) := by
  induction n generalizing v with
  | zero => simp [encodeHex, hexDecode, Nat.mod_one]
  | succ n ih =>
    rw [encodeHex, hexDecode_append, ih]
    simp only [Option.some_bind, hexDecode, fromHexChar_hexDigit _ (Nat.mod_lt v (by decide))]
    congr 1
    rw [Nat.pow_succ', Nat.mod_mul]
    omega

theorem length_encodeHex (n v : Nat) : (encodeHex n v).length = n := by
  induction n generalizing v with
  | zero => simp [encodeHex]
  | succ n ih => simp [encodeHex, ih]

theorem val_le_of_le (ch hi : Char) (h : ch ≤ hi) (hhi : hi.val.toNat ≤ 127) : ch.val ≤ 127 := by
  have h2 : ch.val.toNat ≤ hi.val.toNat := h
  show ch.val.toNat ≤ (127 : UInt32).toNat
  exact Nat.le_trans h2 hhi

theorem val_le_of_fromHexChar (ch : Char) (h : (fromHexChar ch).isSome) : ch.val ≤ 127 := by
  unfold fromHexChar at h
  split at h
  · rename_i h1; exact val_le_of_le ch _ h1.2 (by decide)
  · split at h
    · rename_i h1; exact val_le_of_le ch _ h1.2 (by decide)
    · split at h
      · rename_i h1; exact val_le_of_le ch _ h1.2 (by decide)
      · simp at h

theorem utf8Size_of_fromHexChar (ch : Char) (h : (fromHexChar ch).isSome) : ch.utf8Size = 1 := by
  have hle : ch.val ≤ 127 := val_le_of_fromHexChar ch h
  simp [Char.utf8Size, hle]

theorem utf8ByteSize_go_eq_length (cs : List Char) (h : ∀ ch ∈ cs, (fromHexChar ch).isSome) :
    String.utf8ByteSize.go cs = cs.length := by
  induction cs with
  | nil => rfl
  | cons c cs ih =>
    simp only [String.utf8ByteSize.go, List.length_cons]
    rw [ih (fun ch hch => h ch (List.mem_cons_of_mem _ hch)),
      utf8Size_of_fromHexChar c (h c (List.mem_cons_self _ _))]

theorem hexDecode_some_all (cs : List Char) (acc v : Nat) (h : hexDecode cs acc = some v) :
    ∀ ch ∈ cs, (fromHexChar ch).isSome := by
  induction cs generalizing acc with
  | nil => simp
  | cons c cs ih =>
    intro ch hch
    simp only [hexDecode] at h
    cases hc : fromHexChar c with
    | none => simp [hc] at h
    | some d =>
      rw [hc] at h
      rcases List.mem_cons.1 hch with rfl | hmem
      · simp [hc]
      · exact ih _ h ch hmem

/-- Parsing the hexadecimal form of an identifier gives the identifier back, without error. -/
theorem ObjectIDFromHex_Hex (id : ObjectID) : ObjectIDFromHex (Hex id) = (id, none) := by
  have hall : ∀ ch ∈ encodeHex 24 id.val, (fromHexChar ch).isSome :=
    hexDecode_some_all _ 0 _ (hexDecode_encodeHex 24 id.val)
  have hsize : (Hex id).utf8ByteSize = 24 := by
    show String.utf8ByteSize.go (encodeHex 24 id.val) = 24
    rw [utf8ByteSize_go_eq_length _ hall, length_encodeHex]
  unfold ObjectIDFromHex
  rw [if_neg (by simp [hsize])]
  have hdec : hexDecode (Hex id).toList 0 = some (id.val % 16 ^ 24) := hexDecode_encodeHex 24 id.val
  rw [hdec]
  have hlt : id.val < 2 ^ 96 := id.isLt
  have h16 : (16 : Nat) ^ 24 = 2 ^ 96 := by norm_num
  simp only [h16, Nat.mod_eq_of_lt hlt, Nat.mod_mod]

/-- A path that is not 24 hexadecimal digits parses to the zero identifier. -/
theorem ObjectIDFromHex_malformed (s : String) (h : ¬ IsHexID s) :
    (ObjectIDFromHex s).1 = NilObjectID := by
  unfold ObjectIDFromHex
  split
  · rfl
  · rename_i hsz
    split
    · rfl
    · rename_i v hv
      exfalso
      apply h
      have hall := hexDecode_some_all _ _ _ hv
      have hlen : s.utf8ByteSize = s.toList.length := utf8ByteSize_go_eq_length s.toList hall
      refine ⟨?_, hall⟩
      have : s.utf8ByteSize = 24 := by simpa using hsz
      rw [String.length]
      rw [← this, hlen]
      rfl

/-! ## The store operations -/

theorem FindOne_eq_none (c : Collection) (id : ObjectID) :
    FindOne c id = none ↔ ∀ d ∈ c, d._id ≠ id := by
  simp [FindOne, List.find?_eq_none]

theorem FindOne_some (c : Collection) (id : ObjectID) (d : Doc) (h : FindOne c id = some d) :
    d ∈ c ∧ d._id = id := by
  unfold FindOne at h
  exact ⟨List.mem_of_find?_eq_some h, by simpa using List.find?_some h⟩

theorem eq_of_mem_unique (c : Collection) (hu : c.Unique) (d e : Doc) (hd : d ∈ c) (he : e ∈ c)
    (h : d._id = e._id) : d = e :=
  List.inj_on_of_nodup_map hu hd he h

theorem FindOne_of_mem_unique (c : Collection) (hu : c.Unique) (d : Doc) (hd : d ∈ c) :
    FindOne c d._id = some d := by
  cases hfind : FindOne c d._id with
  | none => exact absurd rfl ((FindOne_eq_none c d._id).1 hfind d hd)
  | some e =>
    obtain ⟨he, heq⟩ := FindOne_some c _ e hfind
    rw [eq_of_mem_unique c hu e d he hd heq]

theorem FindOne_append_new (c : Collection) (d : Doc) (h : ∀ e ∈ c, e._id ≠ d._id) :
    FindOne (c ++ [d]) d._id = some d := by
  unfold FindOne
  rw [List.find?_append]
  have : List.find? (fun e => decide (e._id = d._id)) c = none := by
    simpa [List.find?_eq_none] using h
  simp [this]

theorem UpdateOne_no_match (c : Collection) (id : ObjectID) (set : BsonArticle)
    (h : ∀ d ∈ c, d._id ≠ id) : UpdateOne c id set = .ok (⟨0, 0⟩, c) := by
  induction c with
  | nil => rfl
  | cons d rest ih =>
    have hd : d._id ≠ id := h d (List.mem_cons_self _ _)
    have hr := ih (fun e he => h e (List.mem_cons_of_mem _ he))
    simp [UpdateOne, hd, hr]

/-- What `UpdateOne` leaves in place: the documents keep their order and their
identifiers, and a document with an identifier other than the one of the filter is untouched. -/
theorem UpdateOne_frame (c : Collection) (id : ObjectID) (set : BsonArticle)
    (r : UpdateResult) (c' : Collection) (h : UpdateOne c id set = .ok (r, c')) :
    List.Forall₂ (fun d d' => d'._id = d._id ∧ (d._id ≠ id → d' = d)) c c' := by
  induction c generalizing r c' with
  | nil =>
    simp only [UpdateOne, Except.ok.injEq, Prod.mk.injEq] at h
    rw [← h.2]; exact List.Forall₂.nil
  | cons d rest ih =>
    unfold UpdateOne at h
    split at h
    · rename_i hd
      split at h
      · cases h
      · simp only [Except.ok.injEq, Prod.mk.injEq] at h
        rw [← h.2]
        refine List.Forall₂.cons ⟨rfl, fun hne => absurd hd hne⟩ ?_
        exact List.forall₂_same.2 (fun e _ => ⟨rfl, fun _ => rfl⟩)
    · split at h
      · cases h
      · rename_i r0 rest0 hrest
        simp only [Except.ok.injEq, Prod.mk.injEq] at h
        rw [← h.2]
        exact List.Forall₂.cons ⟨rfl, fun _ => rfl⟩ (ih r0 rest0 hrest)

theorem map_id_of_frame (id : ObjectID) (c c' : Collection)
    (h : List.Forall₂ (fun d d' => d'._id = d._id ∧ (d._id ≠ id → d' = d)) c c') :
    c'.map Doc._id = c.map Doc._id := by
  induction h with
  | nil => rfl
  | cons hd _ ih => simp [hd.1, ih]

theorem DeleteOne_no_match (c : Collection) (id : ObjectID)
    (h : ∀ d ∈ c, d._id ≠ id) : DeleteOne c id = .ok (0, c) := by
  induction c with
  | nil => rfl
  | cons d rest ih =>
    have hd : d._id ≠ id := h d (List.mem_cons_self _ _)
    have hr := ih (fun e he => h e (List.mem_cons_of_mem _ he))
    simp [DeleteOne, hd, hr]

/-- `DeleteOne` always answers, and what is left is a sublist of the collection. -/
theorem DeleteOne_sublist (c : Collection) (id : ObjectID) :
    ∃ n c', DeleteOne c id = .ok (n, c') ∧ List.Sublist c' c := by
  induction c with
  | nil => exact ⟨0, [], rfl, List.Sublist.slnil⟩
  | cons d rest ih =>
    obtain ⟨n, c', hdel, hsub⟩ := ih
    by_cases hd : d._id = id
    · exact ⟨1, rest, by simp [DeleteOne, hd], List.sublist_cons_self _ _⟩
    · exact ⟨n, d :: c', by simp [DeleteOne, hd, hdel], hsub.cons₂ d⟩

/-- On a collection with unique identifiers, `DeleteOne` on the identifier of a
stored document removes that document and nothing else. -/
theorem DeleteOne_match (c : Collection) (id : ObjectID) (hu : c.Unique)
    (h : ∃ d ∈ c, d._id = id) :
    DeleteOne c id = .ok (1, c.filter fun d => d._id ≠ id) := by
  induction c with
  | nil => simp at h
  | cons d rest ih =>
    have hu' : (d._id ∉ rest.map Doc._id) ∧ Collection.Unique rest := by
      simpa [Collection.Unique] using hu
    by_cases hd : d._id = id
    · have hrest : ∀ e ∈ rest, e._id ≠ id := by
        intro e he heq
        exact hu'.1 (by rw [hd, ← heq]; exact List.mem_map_of_mem _ he)
      have hfil : rest.filter (fun e => !decide (e._id = id)) = rest := by
        rw [List.filter_eq_self]; intro e he; simpa using hrest e he
      simp [DeleteOne, hd, List.filter_cons, hfil]
    · obtain ⟨e, he, heq⟩ := h
      have he' : e ∈ rest := by
        rcases List.mem_cons.1 he with rfl | hmem
        · exact absurd heq hd
        · exact hmem
      have := ih hu'.2 ⟨e, he', heq⟩
      simp [DeleteOne, hd, this, List.filter_cons]

/-! ## Create and Get -/

/-- The identifier under which `InsertOne` stores an article: its own when it
is not the zero identifier, the generated one otherwise. -/
theorem marshal_id_getD (gen : ObjectID) (a : Article) :
    (marshal a)._id.getD gen = if a.ID = NilObjectID then gen else a.ID := by
  unfold marshal
  split <;> rfl

/-- What `createArticle` does with a body that decodes. -/
theorem createArticle_of_bind (gen : ObjectID) (c : Collection) (body : Body) (a : Article)
    (h : bindJSON body = .ok a) :
    createArticle gen c body =
      if ∃ d ∈ c, d._id = (marshal a)._id.getD gen then
        ⟨⟨StatusInternalServerError, .error (.ofStore (.DuplicateKey ((marshal a)._id.getD gen)))⟩,
          c, [.InsertOne (marshal a)]⟩
      else
        ⟨⟨StatusCreated, .id ((marshal a)._id.getD gen)⟩,
          c ++ [⟨(marshal a)._id.getD gen, a.Title, a.Content, a.Author⟩],
          [.InsertOne (marshal a)]⟩ := by
  unfold createArticle
  rw [h]
  simp only [InsertOne]
  by_cases hex : ∃ d ∈ c, d._id = (marshal a)._id.getD gen
  · have hany : (c.any fun d => decide (d._id = (marshal a)._id.getD gen)) = true := by
      rw [List.any_eq_true]
      obtain ⟨d, hd, heq⟩ := hex
      exact ⟨d, hd, by simp [heq]⟩
    rw [if_pos hany, if_pos hex]
  · have hany : ¬ (c.any fun d => decide (d._id = (marshal a)._id.getD gen)) = true := by
      rw [List.any_eq_true]
      rintro ⟨d, hd, heq⟩
      exact hex ⟨d, hd, by simpa using heq⟩
    rw [if_neg hany, if_neg hex]
    rfl

/-- C1. Create followed by Get is a round trip: when the body decodes into an
article and Create answers 201 with the identifier `i`, Get on the hexadecimal
form of `i` answers 200 with the article of the body under the identifier `i`,
and `i` is not the zero identifier (the driver generating a non-zero one). -/
theorem create_then_get_roundtrip (gen : ObjectID) (c : Collection) (body : Body) (a : Article)
    (i : ObjectID) (hgen : gen ≠ NilObjectID) (hbody : bindJSON body = .ok a)
    (hcreate : (createArticle gen c body).resp = ⟨StatusCreated, .id i⟩) :
    (getArticle (createArticle gen c body).coll (Hex i)).resp
        = ⟨StatusOK, .article ⟨i, a.Title, a.Content, a.Author⟩⟩
      ∧ i ≠ NilObjectID := by
  rw [createArticle_of_bind gen c body a hbody] at hcreate ⊢
  split at hcreate
  · simp at hcreate
  · rename_i hfresh
    simp only [Response.mk.injEq, ResponseBody.id.injEq, true_and] at hcreate
    rw [if_neg hfresh]
    refine ⟨?_, ?_⟩
    · have hnew := FindOne_append_new c ⟨(marshal a)._id.getD gen, a.Title, a.Content, a.Author⟩
        (fun e he heq => hfresh ⟨e, he, heq⟩)
      simp only [getArticle, ObjectIDFromHex_Hex]
      rw [← hcreate, hnew]
      rfl
    · rw [← hcreate, marshal_id_getD]
      split
      · exact hgen
      · assumption

theorem create_then_get_roundtrip_witness :
    (7 : ObjectID) ≠ NilObjectID
      ∧ bindJSON (.json (.obj [strMember "title" "t", strMember "content" "c", strMember "author" "a"]))
          = .ok ⟨NilObjectID, "t", "c", "a"⟩
      ∧ (createArticle 7 [⟨3, "x", "y", "z"⟩]
          (.json (.obj [strMember "title" "t", strMember "content" "c", strMember "author" "a"]))).resp
          = ⟨StatusCreated, .id 7⟩
      ∧ (getArticle (createArticle 7 [⟨3, "x", "y", "z"⟩]
          (.json (.obj [strMember "title" "t", strMember "content" "c", strMember "author" "a"]))).coll
          (Hex 7)).resp = ⟨StatusOK, .article ⟨7, "t", "c", "a"⟩⟩
      ∧ (7 : ObjectID) ≠ NilObjectID :=
  ⟨by decide, by decide, by decide,
    create_then_get_roundtrip 7 [⟨3, "x", "y", "z"⟩]
      (.json (.obj [strMember "title" "t", strMember "content" "c", strMember "author" "a"]))
      ⟨NilObjectID, "t", "c", "a"⟩ 7 (by decide) (by decide) (by decide)⟩

/-- Get on an identifier that no stored document has. -/
theorem get_not_found_aux (c : Collection) (id : String)
    (hmiss : ∀ d ∈ c, d._id ≠ (ObjectIDFromHex id).1) :
    getArticle c id
      = ⟨⟨StatusNotFound, .error (.text "Article not found")⟩, c, [.FindOne (ObjectIDFromHex id).1]⟩ := by
  have hnone := (FindOne_eq_none c (ObjectIDFromHex id).1).2 hmiss
  simp only [getArticle, hnone]

/-- C2. Get answers 404 with the message "Article not found" whenever the
identifier it looks up for the path (the parsed one, the zero identifier for
a malformed path) is not the identifier of a stored document; it answers 200
exactly when a stored document has that identifier, and then the response is
that document: its identifier, title, content and author. Under the unique
index the document is the one with that identifier. -/
theorem get_not_found_unless_present (c : Collection) (id : String) :
    ((∀ d ∈ c, d._id ≠ (ObjectIDFromHex id).1) →
        getArticle c id
          = ⟨⟨StatusNotFound, .error (.text "Article not found")⟩, c,
              [.FindOne (ObjectIDFromHex id).1]⟩)
      ∧ ((getArticle c id).resp.status = StatusOK ↔ ∃ d ∈ c, d._id = (ObjectIDFromHex id).1)
      ∧ ((getArticle c id).resp.status = StatusOK →
          ∃ d ∈ c, d._id = (ObjectIDFromHex id).1
            ∧ getArticle c id
                = ⟨⟨StatusOK, .article ⟨d._id, d.title, d.content, d.author⟩⟩, c,
                    [.FindOne (ObjectIDFromHex id).1]⟩)
      ∧ (c.Unique → ∀ d ∈ c, d._id = (ObjectIDFromHex id).1 →
          getArticle c id
            = ⟨⟨StatusOK, .article ⟨d._id, d.title, d.content, d.author⟩⟩, c,
                [.FindOne (ObjectIDFromHex id).1]⟩) := by
  have hsome : ∀ d, FindOne c (ObjectIDFromHex id).1 = some d →
      getArticle c id
        = ⟨⟨StatusOK, .article ⟨d._id, d.title, d.content, d.author⟩⟩, c,
            [.FindOne (ObjectIDFromHex id).1]⟩ := by
    intro d hfind
    simp only [getArticle, hfind, Doc.decode]
  have hok : (getArticle c id).resp.status = StatusOK →
      ∃ d ∈ c, d._id = (ObjectIDFromHex id).1
        ∧ getArticle c id
            = ⟨⟨StatusOK, .article ⟨d._id, d.title, d.content, d.author⟩⟩, c,
                [.FindOne (ObjectIDFromHex id).1]⟩ := by
    intro hstatus
    cases hfind : FindOne c (ObjectIDFromHex id).1 with
    | none =>
      rw [get_not_found_aux c id ((FindOne_eq_none c _).1 hfind)] at hstatus
      simp at hstatus
    | some d =>
      obtain ⟨hmem, hid⟩ := FindOne_some c _ d hfind
      exact ⟨d, hmem, hid, hsome d hfind⟩
  refine ⟨get_not_found_aux c id, ⟨?_, ?_⟩, hok, ?_⟩
  · intro hstatus
    obtain ⟨d, hmem, hid, _⟩ := hok hstatus
    exact ⟨d, hmem, hid⟩
  · rintro ⟨d, hmem, hid⟩
    cases hfind : FindOne c (ObjectIDFromHex id).1 with
    | none => exact absurd hid ((FindOne_eq_none c _).1 hfind d hmem)
    | some e => rw [hsome e hfind]
  · intro hu d hmem hid
    have hfind := FindOne_of_mem_unique c hu d hmem
    rw [hid] at hfind
    exact hsome d hfind

theorem get_not_found_unless_present_witness :
    (∀ d ∈ ([⟨3, "x", "y", "z"⟩, ⟨5, "t", "c", "a"⟩] : Collection),
        d._id ≠ (ObjectIDFromHex "not-an-id").1)
      ∧ getArticle [⟨3, "x", "y", "z"⟩, ⟨5, "t", "c", "a"⟩] "not-an-id"
          = ⟨⟨StatusNotFound, .error (.text "Article not found")⟩,
              [⟨3, "x", "y", "z"⟩, ⟨5, "t", "c", "a"⟩], [.FindOne NilObjectID]⟩
      ∧ Collection.Unique [⟨3, "x", "y", "z"⟩, ⟨5, "t", "c", "a"⟩]
      ∧ (ObjectIDFromHex "000000000000000000000005").1 = 5
      ∧ getArticle [⟨3, "x", "y", "z"⟩, ⟨5, "t", "c", "a"⟩] "000000000000000000000005"
          = ⟨⟨StatusOK, .article ⟨5, "t", "c", "a"⟩⟩,
              [⟨3, "x", "y", "z"⟩, ⟨5, "t", "c", "a"⟩], [.FindOne 5]⟩ :=
  ⟨by decide,
    (get_not_found_unless_present [⟨3, "x", "y", "z"⟩, ⟨5, "t", "c", "a"⟩] "not-an-id").1
      (by decide),
    by decide, by decide,
    (get_not_found_unless_present [⟨3, "x", "y", "z"⟩, ⟨5, "t", "c", "a"⟩]
      "000000000000000000000005").2.2.2 (by decide) ⟨5, "t", "c", "a"⟩ (by decide) (by decide)⟩

/-! ## Delete -/

theorem DeleteOne_length (c : Collection) (id : ObjectID) (n : Nat) (c' : Collection)
    (h : DeleteOne c id = .ok (n, c')) : c'.length + n = c.length := by
  induction c generalizing n c' with
  | nil =>
    simp only [DeleteOne, Except.ok.injEq, Prod.mk.injEq] at h
    rw [← h.1, ← h.2]; rfl
  | cons d rest ih =>
    unfold DeleteOne at h
    split at h
    · simp only [Except.ok.injEq, Prod.mk.injEq] at h
      rw [← h.1, ← h.2]; rfl
    · split at h
      · cases h
      · rename_i n0 rest0 hrest
        simp only [Except.ok.injEq, Prod.mk.injEq] at h
        rw [← h.1, ← h.2]
        have := ih n0 rest0 hrest
        simp only [List.length_cons]
        omega

/-- C4. On a collection that holds a document with the identifier `i` (under
the unique index), Delete on a path for `i` answers 200 with a count of 1,
leaves exactly the other documents, unchanged and in order, and a Get on the
same path then answers 404. -/
theorem delete_then_get_not_found (c : Collection) (i : ObjectID) (id : String)
    (hu : c.Unique) (hmem : ∃ d ∈ c, d._id = i) (hid : (ObjectIDFromHex id).1 = i) :
    (deleteArticle c id).resp = ⟨StatusOK, .deleted 1⟩
      ∧ (deleteArticle c id).coll = c.filter (fun d => d._id ≠ i)
      ∧ (deleteArticle c id).coll.length + 1 = c.length
      ∧ (getArticle (deleteArticle c id).coll id).resp
          = ⟨StatusNotFound, .error (.text "Article not found")⟩ := by
  have hdel := DeleteOne_match c i hu hmem
  have hlen := DeleteOne_length c i 1 _ hdel
  have hout : deleteArticle c id
      = ⟨⟨StatusOK, .deleted 1⟩, c.filter (fun d => d._id ≠ i), [.DeleteOne i]⟩ := by
    simp only [deleteArticle, hid, hdel]
  rw [hout]
  refine ⟨rfl, rfl, hlen, ?_⟩
  have hmiss : ∀ d ∈ c.filter (fun d => d._id ≠ i), d._id ≠ (ObjectIDFromHex id).1 := by
    intro d hd
    rw [hid]
    simpa using (List.mem_filter.1 hd).2
  rw [(get_not_found_aux _ id hmiss)]

theorem delete_then_get_not_found_witness :
    Collection.Unique [⟨3, "x", "y", "z"⟩, ⟨5, "t", "c", "a"⟩]
      ∧ (∃ d ∈ ([⟨3, "x", "y", "z"⟩, ⟨5, "t", "c", "a"⟩] : Collection), d._id = 3)
      ∧ (ObjectIDFromHex "000000000000000000000003").1 = 3
      ∧ (deleteArticle [⟨3, "x", "y", "z"⟩, ⟨5, "t", "c", "a"⟩] "000000000000000000000003").resp
          = ⟨StatusOK, .deleted 1⟩
      ∧ (deleteArticle [⟨3, "x", "y", "z"⟩, ⟨5, "t", "c", "a"⟩] "000000000000000000000003").coll
          = [⟨5, "t", "c", "a"⟩] :=
  have h := delete_then_get_not_found [⟨3, "x", "y", "z"⟩, ⟨5, "t", "c", "a"⟩] 3
    "000000000000000000000003" (by decide) (by decide) (by decide)
  ⟨by decide, by decide, by decide, h.1, by decide⟩

/-! ## Requests that match no document, and bodies that do not decode -/

/-- C7. When the identifier looked up for the path is not the identifier of
any stored document, Update with a body that decodes answers 200 with a count
of 0 and Delete answers 200 with a count of 0, and both leave the collection
as it was. -/
theorem zero_match_update_delete (c : Collection) (id : String) (body : Body) (a : Article)
    (hmiss : ∀ d ∈ c, d._id ≠ (ObjectIDFromHex id).1) (hbody : bindJSON body = .ok a) :
    updateArticle c id body
        = ⟨⟨StatusOK, .updated 0⟩, c, [.UpdateOne (ObjectIDFromHex id).1 (marshal a)]⟩
      ∧ deleteArticle c id
        = ⟨⟨StatusOK, .deleted 0⟩, c, [.DeleteOne (ObjectIDFromHex id).1]⟩ := by
  constructor
  · simp only [updateArticle, hbody, UpdateOne_no_match c _ (marshal a) hmiss]
  · simp only [deleteArticle, DeleteOne_no_match c _ hmiss]

theorem zero_match_update_delete_witness :
    (∀ d ∈ ([⟨3, "x", "y", "z"⟩] : Collection),
        d._id ≠ (ObjectIDFromHex "000000000000000000000009").1)
      ∧ bindJSON (.json (.obj [strMember "title" "t", strMember "id" "000000000000000000000004"]))
          = .ok ⟨4, "t", "", ""⟩
      ∧ (updateArticle [⟨3, "x", "y", "z"⟩] "000000000000000000000009"
            (.json (.obj [strMember "title" "t", strMember "id" "000000000000000000000004"]))
          = ⟨⟨StatusOK, .updated 0⟩, [⟨3, "x", "y", "z"⟩],
              [.UpdateOne (ObjectIDFromHex "000000000000000000000009").1 (marshal ⟨4, "t", "", ""⟩)]⟩
        ∧ deleteArticle [⟨3, "x", "y", "z"⟩] "000000000000000000000009"
          = ⟨⟨StatusOK, .deleted 0⟩, [⟨3, "x", "y", "z"⟩],
              [.DeleteOne (ObjectIDFromHex "000000000000000000000009").1]⟩) :=
  ⟨by decide, by decide,
    zero_match_update_delete [⟨3, "x", "y", "z"⟩] "000000000000000000000009"
      (.json (.obj [strMember "title" "t", strMember "id" "000000000000000000000004"]))
      ⟨4, "t", "", ""⟩ (by decide) (by decide)⟩

/-- C8. When the body does not decode, Create and Update (on any path) answer
400 with the message of the decode error, issue no store call and leave the
collection as it was; when the body decodes, neither answers 400. -/
theorem decode_failure_bad_request (gen : ObjectID) (c : Collection) (id : String) (body : Body) :
    (∀ err, bindJSON body = .error err →
        createArticle gen c body = ⟨⟨StatusBadRequest, .error (.ofDecode err)⟩, c, []⟩
          ∧ updateArticle c id body = ⟨⟨StatusBadRequest, .error (.ofDecode err)⟩, c, []⟩)
      ∧ (∀ a, bindJSON body = .ok a →
          (createArticle gen c body).resp.status ≠ StatusBadRequest
            ∧ (updateArticle c id body).resp.status ≠ StatusBadRequest) := by
  constructor
  · intro err herr
    simp only [createArticle, updateArticle, herr, and_self]
  · intro a hok
    constructor
    · rw [createArticle_of_bind gen c body a hok]
      split <;> simp
    · simp only [updateArticle, hok]
      cases UpdateOne c (ObjectIDFromHex id).1 (marshal a) with
      | error e => simp
      | ok r => simp

theorem decode_failure_bad_request_witness :
    bindJSON (.malformed "unexpected EOF") = .error (.InvalidBody "unexpected EOF")
      ∧ (createArticle 7 [⟨3, "x", "y", "z"⟩] (.malformed "unexpected EOF")
            = ⟨⟨StatusBadRequest, .error (.ofDecode (.InvalidBody "unexpected EOF"))⟩,
                [⟨3, "x", "y", "z"⟩], []⟩
          ∧ updateArticle [⟨3, "x", "y", "z"⟩] "000000000000000000000003"
              (.malformed "unexpected EOF")
            = ⟨⟨StatusBadRequest, .error (.ofDecode (.InvalidBody "unexpected EOF"))⟩,
                [⟨3, "x", "y", "z"⟩], []⟩)
      ∧ bindJSON (.json (.obj [("title", [53], .num 5)]))
          = .error (.UnmarshalTypeError "number" (some "Title"))
      ∧ (createArticle 7 [⟨3, "x", "y", "z"⟩] (.json (.obj [("title", [53], .num 5)]))
            = ⟨⟨StatusBadRequest, .error (.ofDecode (.UnmarshalTypeError "number" (some "Title")))⟩,
                [⟨3, "x", "y", "z"⟩], []⟩
          ∧ updateArticle [⟨3, "x", "y", "z"⟩] "000000000000000000000003"
              (.json (.obj [("title", [53], .num 5)]))
            = ⟨⟨StatusBadRequest, .error (.ofDecode (.UnmarshalTypeError "number" (some "Title")))⟩,
                [⟨3, "x", "y", "z"⟩], []⟩)
      ∧ bindJSON (.json (.obj [strMember "id" "0123456789", strMember "title" "t"]))
          = .ok ⟨0x223031323334353637383922, "t", "", ""⟩
      ∧ ((createArticle 7 [⟨3, "x", "y", "z"⟩]
            (.json (.obj [strMember "id" "0123456789", strMember "title" "t"]))).resp.status
            ≠ StatusBadRequest
          ∧ (updateArticle [⟨3, "x", "y", "z"⟩] "000000000000000000000003"
              (.json (.obj [strMember "id" "0123456789", strMember "title" "t"]))).resp.status
            ≠ StatusBadRequest)
      ∧ createArticle 7 [⟨3, "x", "y", "z"⟩]
            (.json (.obj [strMember "id" "0123456789", strMember "title" "t"]))
          = ⟨⟨StatusCreated, .id 0x223031323334353637383922⟩,
              [⟨3, "x", "y", "z"⟩, ⟨0x223031323334353637383922, "t", "", ""⟩],
              [.InsertOne ⟨some 0x223031323334353637383922, "t", "", ""⟩]⟩ :=
  ⟨by decide,
    (decode_failure_bad_request 7 [⟨3, "x", "y", "z"⟩] "000000000000000000000003"
      (.malformed "unexpected EOF")).1 (.InvalidBody "unexpected EOF") (by decide),
    by decide,
    (decode_failure_bad_request 7 [⟨3, "x", "y", "z"⟩] "000000000000000000000003"
      (.json (.obj [("title", [53], .num 5)]))).1
      (.UnmarshalTypeError "number" (some "Title")) (by decide),
    by decide,
    (decode_failure_bad_request 7 [⟨3, "x", "y", "z"⟩] "000000000000000000000003"
      (.json (.obj [strMember "id" "0123456789", strMember "title" "t"]))).2
      ⟨0x223031323334353637383922, "t", "", ""⟩ (by decide),
    by decide⟩

/-! ## Update -/

/-- `UpdateOne` on the identifier of a stored document, with a `$set` that
carries no other `_id`: the first document with that identifier takes the
fields, and counts as modified unless it already held them. -/
theorem UpdateOne_match (c : Collection) (i : ObjectID) (set : BsonArticle) (d : Doc)
    (hfind : FindOne c i = some d) (hset : set._id = none ∨ set._id = some i) :
    ∃ c', UpdateOne c i set
        = .ok (⟨1, if (⟨i, set.title, set.content, set.author⟩ : Doc) = d then 0 else 1⟩, c')
      ∧ FindOne c' i = some ⟨i, set.title, set.content, set.author⟩ := by
  induction c with
  | nil => simp [FindOne] at hfind
  | cons e rest ih =>
    by_cases he : e._id = i
    · have hde : d = e := by
        simp only [FindOne, List.find?_cons, he, decide_True] at hfind
        exact (Option.some.inj hfind).symm
      subst hde
      have hguard : ¬ (set._id.isSome = true ∧ set._id ≠ some d._id) := by
        rintro ⟨h1, h2⟩
        rcases hset with h | h
        · simp [h] at h1
        · exact h2 (by rw [h, he])
      refine ⟨⟨d._id, set.title, set.content, set.author⟩ :: rest, ?_, ?_⟩
      · unfold UpdateOne
        rw [if_pos he, if_neg hguard]
        simp only [he]
      · simp [FindOne, List.find?_cons, he]
    · have hfind' : FindOne rest i = some d := by
        simpa [FindOne, List.find?_cons, he] using hfind
      obtain ⟨c', hupd, hf⟩ := ih hfind'
      refine ⟨e :: c', ?_, ?_⟩
      · simp only [UpdateOne, if_neg he, hupd]
      · simpa [FindOne, List.find?_cons, he] using hf

/-- `UpdateOne` refuses a `$set` whose `_id` differs from the identifier of the matched document. -/
theorem UpdateOne_immutable (c : Collection) (i j : ObjectID) (set : BsonArticle)
    (hmem : ∃ d ∈ c, d._id = i) (hset : set._id = some j) (hne : j ≠ i) :
    ∃ e, UpdateOne c i set = .error e := by
  induction c with
  | nil => simp at hmem
  | cons d rest ih =>
    by_cases hd : d._id = i
    · have hguard : set._id.isSome = true ∧ set._id ≠ some d._id := by
        rw [hset, hd]
        exact ⟨rfl, fun h => hne (Option.some.inj h)⟩
      refine ⟨.ImmutableField, ?_⟩
      unfold UpdateOne
      rw [if_pos hd, if_pos hguard]
    · obtain ⟨e, he, heq⟩ := hmem
      have he' : e ∈ rest := by
        rcases List.mem_cons.1 he with rfl | hmem
        · exact absurd heq hd
        · exact hmem
      obtain ⟨msg, hmsg⟩ := ih ⟨e, he', heq⟩
      refine ⟨msg, ?_⟩
      unfold UpdateOne
      rw [if_neg hd, hmsg]

/-- What `updateArticle` leaves in place, whatever the path and the body. -/
theorem updateArticle_frame (c : Collection) (id : String) (body : Body) :
    List.Forall₂ (fun d d' => d'._id = d._id ∧ (d._id ≠ (ObjectIDFromHex id).1 → d' = d))
      c (updateArticle c id body).coll := by
  have hsame : List.Forall₂
      (fun d d' => d'._id = d._id ∧ (d._id ≠ (ObjectIDFromHex id).1 → d' = d)) c c :=
    List.forall₂_same.2 (fun e _ => ⟨rfl, fun _ => rfl⟩)
  cases hbind : bindJSON body with
  | error err => simp only [updateArticle, hbind]; exact hsame
  | ok a =>
    cases hupd : UpdateOne c (ObjectIDFromHex id).1 (marshal a) with
    | error e => simp only [updateArticle, hbind, hupd]; exact hsame
    | ok r =>
      obtain ⟨res, c'⟩ := r
      simp only [updateArticle, hbind, hupd]
      exact UpdateOne_frame c _ _ res c' hupd

/-- C3, as amended. On a collection (under the unique index) that holds the
document `d` with the identifier `i`, Update on a path for `i` with the body
`{"title": X}` answers 200; the count is 1 when `d` does not already hold the
title `X` with empty content and author, and 0 when it does; afterwards the
document with the identifier `i` has the title `X`, content "" and author "". -/
theorem update_title_only (c : Collection) (i : ObjectID) (id : String) (X : String) (d : Doc)
    (raw : List Nat) (hu : c.Unique) (hmem : d ∈ c) (hd : d._id = i) (hid : (ObjectIDFromHex id).1 = i) :
    (updateArticle c id (.json (.obj [("title", raw, .str X)]))).resp
        = ⟨StatusOK, .updated (if d = ⟨i, X, "", ""⟩ then 0 else 1)⟩
      ∧ FindOne (updateArticle c id (.json (.obj [("title", raw, .str X)]))).coll i
          = some ⟨i, X, "", ""⟩
      ∧ ∀ e ∈ (updateArticle c id (.json (.obj [("title", raw, .str X)]))).coll,
          e._id = i → e = ⟨i, X, "", ""⟩ := by
  have hbind : bindJSON (.json (.obj [("title", raw, .str X)])) = .ok ⟨NilObjectID, X, "", ""⟩ := by
    have h1 : equalFold "title" "ID" = false := by decide
    have h2 : equalFold "title" "Title" = true := by decide
    simp [bindJSON, bindMembers, h1, h2, unmarshalString]
  have hmarshal : marshal ⟨NilObjectID, X, "", ""⟩ = ⟨none, X, "", ""⟩ := by
    simp [marshal]
  have hfind : FindOne c i = some d := by
    rw [← hd]; exact FindOne_of_mem_unique c hu d hmem
  obtain ⟨c', hupd, hf⟩ := UpdateOne_match c i ⟨none, X, "", ""⟩ d hfind (Or.inl rfl)
  have hframe := updateArticle_frame c id (.json (.obj [("title", raw, .str X)]))
  have hout : updateArticle c id (.json (.obj [("title", raw, .str X)]))
      = ⟨⟨StatusOK, .updated (if (⟨i, X, "", ""⟩ : Doc) = d then 0 else 1)⟩, c',
          [.UpdateOne i ⟨none, X, "", ""⟩]⟩ := by
    simp only [updateArticle, hbind, hmarshal, hid, hupd]
  rw [hout] at hframe ⊢
  have hu' : Collection.Unique c' := by
    unfold Collection.Unique
    rw [map_id_of_frame _ c c' hframe]
    exact hu
  refine ⟨?_, hf, ?_⟩
  · by_cases hdeq : d = ⟨i, X, "", ""⟩
    · simp [hdeq]
    · have : ¬ (⟨i, X, "", ""⟩ : Doc) = d := fun h => hdeq h.symm
      simp [hdeq, this]
  · intro e he hei
    have hnew := (FindOne_some c' i _ hf).1
    exact eq_of_mem_unique c' hu' e _ he hnew hei

theorem update_title_only_witness :
    Collection.Unique [⟨3, "old", "text", "ann"⟩, ⟨5, "t", "c", "a"⟩]
      ∧ (ObjectIDFromHex "000000000000000000000003").1 = 3
      ∧ (updateArticle [⟨3, "old", "text", "ann"⟩, ⟨5, "t", "c", "a"⟩] "000000000000000000000003"
          (.json (.obj [strMember "title" "X"]))).resp = ⟨StatusOK, .updated 1⟩
      ∧ (updateArticle [⟨3, "old", "text", "ann"⟩, ⟨5, "t", "c", "a"⟩] "000000000000000000000003"
          (.json (.obj [strMember "title" "X"]))).coll = [⟨3, "X", "", ""⟩, ⟨5, "t", "c", "a"⟩] :=
  have h := update_title_only [⟨3, "old", "text", "ann"⟩, ⟨5, "t", "c", "a"⟩] 3
    "000000000000000000000003" "X" ⟨3, "old", "text", "ann"⟩ (34 :: utf8 "X" ++ [34])
    (by decide) (by decide) (by decide) (by decide)
  ⟨by decide, by decide, h.1, by decide⟩

/-- C3 as stated fails: the collection holds a document with the identifier 3
that already has the title "X" and empty content and author; Update with the
body `{"title": "X"}` answers 200 with a count of 0, not 1. -/
theorem update_title_only_count_counterexample :
    (∃ d ∈ ([⟨3, "X", "", ""⟩] : Collection), d._id = 3)
      ∧ Hex 3 = "000000000000000000000003"
      ∧ (updateArticle [⟨3, "X", "", ""⟩] "000000000000000000000003"
          (.json (.obj [strMember "title" "X"]))).resp = ⟨StatusOK, .updated 0⟩
      ∧ (updateArticle [⟨3, "X", "", ""⟩] "000000000000000000000003"
          (.json (.obj [strMember "title" "X"]))).resp ≠ ⟨StatusOK, .updated 1⟩ := by
  decide

/-- C9. Update never changes identifiers: whatever the path and the body, the
documents keep their order and their identifiers, the identifiers stay
pairwise distinct, and a document whose identifier is not the one looked up
for the path is unchanged; a body that decodes with an identifier other than
the one of the matched document is refused with 500 and changes nothing. -/
theorem update_keeps_identifiers (c : Collection) (id : String) (body : Body) :
    (updateArticle c id body).coll.map Doc._id = c.map Doc._id
      ∧ (c.Unique → (updateArticle c id body).coll.Unique)
      ∧ List.Forall₂ (fun d d' => d'._id = d._id ∧ (d._id ≠ (ObjectIDFromHex id).1 → d' = d))
          c (updateArticle c id body).coll
      ∧ (∀ a, bindJSON body = .ok a → a.ID ≠ NilObjectID → a.ID ≠ (ObjectIDFromHex id).1 →
          (∃ d ∈ c, d._id = (ObjectIDFromHex id).1) →
          (updateArticle c id body).resp.status = StatusInternalServerError
            ∧ (updateArticle c id body).coll = c) := by
  have hframe := updateArticle_frame c id body
  have hids := map_id_of_frame _ c _ hframe
  refine ⟨hids, ?_, hframe, ?_⟩
  · intro hu
    unfold Collection.Unique
    rw [hids]
    exact hu
  · intro a hbind hnz hne hmem
    have hset : (marshal a)._id = some a.ID := by simp [marshal, hnz]
    obtain ⟨e, he⟩ := UpdateOne_immutable c _ a.ID (marshal a) hmem hset hne
    simp only [updateArticle, hbind, he, and_self]

theorem update_keeps_identifiers_witness :
    Collection.Unique [⟨3, "x", "y", "z"⟩, ⟨5, "t", "c", "a"⟩]
      ∧ bindJSON (.json (.obj [strMember "id" "000000000000000000000005", strMember "title" "n"]))
          = .ok ⟨5, "n", "", ""⟩
      ∧ (updateArticle [⟨3, "x", "y", "z"⟩, ⟨5, "t", "c", "a"⟩] "000000000000000000000003"
          (.json (.obj [strMember "id" "000000000000000000000005", strMember "title" "n"]))).coll.Unique
      ∧ ((updateArticle [⟨3, "x", "y", "z"⟩, ⟨5, "t", "c", "a"⟩] "000000000000000000000003"
            (.json (.obj [strMember "id" "000000000000000000000005", strMember "title" "n"]))).resp.status
            = StatusInternalServerError
          ∧ (updateArticle [⟨3, "x", "y", "z"⟩, ⟨5, "t", "c", "a"⟩] "000000000000000000000003"
            (.json (.obj [strMember "id" "000000000000000000000005", strMember "title" "n"]))).coll
            = [⟨3, "x", "y", "z"⟩, ⟨5, "t", "c", "a"⟩]) :=
  have h := update_keeps_identifiers [⟨3, "x", "y", "z"⟩, ⟨5, "t", "c", "a"⟩]
    "000000000000000000000003"
    (.json (.obj [strMember "id" "000000000000000000000005", strMember "title" "n"]))
  ⟨by decide, by decide, h.2.1 (by decide),
    h.2.2.2 ⟨5, "n", "", ""⟩ (by decide) (by decide) (by decide) (by decide)⟩

/-! ## Create and the identifier of the body -/

theorem utf8_length_of_hex (cs : List Char) (h : ∀ ch ∈ cs, (fromHexChar ch).isSome) :
    ((cs.map utf8Char).flatten).length = cs.length := by
  induction cs with
  | nil => rfl
  | cons c cs ih =>
    have hc : c.toNat ≤ 0x7F := val_le_of_fromHexChar c (h c (List.mem_cons_self _ _))
    simp only [List.map_cons, List.flatten_cons, List.length_append, List.length_cons,
      utf8Char, if_pos hc, List.length_singleton, List.length_nil]
    rw [ih (fun ch hch => h ch (List.mem_cons_of_mem _ hch))]
    omega

/-- The string form of an identifier is read back as the identifier. -/
theorem objectIDFromString_Hex (k : ObjectID) : objectIDFromString (Hex k) = .ok k := by
  have hall : ∀ ch ∈ encodeHex 24 k.val, (fromHexChar ch).isSome :=
    hexDecode_some_all _ 0 _ (hexDecode_encodeHex 24 k.val)
  have hsize : (Hex k).utf8ByteSize = 24 := by
    show String.utf8ByteSize.go (encodeHex 24 k.val) = 24
    rw [utf8ByteSize_go_eq_length _ hall, length_encodeHex]
  have h0 : ¬ (Hex k).utf8ByteSize = 0 := by rw [hsize]; decide
  have h24 : ¬ (Hex k).utf8ByteSize ≠ 24 := by rw [hsize]; decide
  have hdec : hexDecode (Hex k).toList 0 = some (k.val % 16 ^ 24) := hexDecode_encodeHex 24 k.val
  unfold objectIDFromString
  rw [if_neg h0, if_neg h24, hdec]
  have hlt : k.val < 2 ^ 96 := k.isLt
  have h16 : (16 : Nat) ^ 24 = 2 ^ 96 := by norm_num
  simp only [h16, Nat.mod_eq_of_lt hlt, Nat.mod_mod]

theorem bindJSON_obj (members : List (String × List Nat × Json)) :
    bindJSON (.json (.obj members)) = bindMembers members ⟨NilObjectID, "", "", ""⟩ none := by
  simp only [bindJSON]

theorem bindMembers_id (b : List Nat) (v : Json) (rest : List (String × List Nat × Json))
    (a : Article) (saved : Option DecodeError) (i : ObjectID)
    (h : unmarshalObjectID b v a.ID = .ok i) :
    bindMembers (("id", b, v) :: rest) a saved = bindMembers rest { a with ID := i } saved := by
  have h1 : equalFold "id" "ID" = true := by decide
  rw [bindMembers, if_pos h1, h]

theorem bindMembers_title (b : List Nat) (t : String) (rest : List (String × List Nat × Json))
    (a : Article) (saved : Option DecodeError) :
    bindMembers (("title", b, .str t) :: rest) a saved
      = bindMembers rest { a with Title := t } saved := by
  have h2 : equalFold "title" "ID" = false := by decide
  have h3 : equalFold "title" "Title" = true := by decide
  rw [bindMembers, if_neg (by simp [h2]), if_pos h3]
  rfl

/-- A body `{"id": "<24 hexadecimal digits of k>", "title": t}` decodes into an
article with the identifier `k`. -/
theorem bindJSON_hex_id (k : ObjectID) (t : String) :
    bindJSON (.json (.obj [strMember "id" (Hex k), strMember "title" t]))
      = .ok ⟨k, t, "", ""⟩ := by
  have hnull : utf8 "null" = [110, 117, 108, 108] := by decide
  have hall : ∀ ch ∈ encodeHex 24 k.val, (fromHexChar ch).isSome :=
    hexDecode_some_all _ 0 _ (hexDecode_encodeHex 24 k.val)
  have hlen : (utf8 (Hex k)).length = 24 := by
    show ((encodeHex 24 k.val).map utf8Char).flatten.length = 24
    rw [utf8_length_of_hex _ hall, length_encodeHex]
  have hne : ¬ (34 :: utf8 (Hex k) ++ [34] = utf8 "null") := by
    rw [hnull]; intro h; injection h with h _; exact absurd h (by decide)
  have hl : ¬ ((34 :: utf8 (Hex k) ++ [34]).length = 12) := by
    simp only [List.length_cons, List.length_append, hlen, List.length_singleton, List.length_nil]
    decide
  have hid : unmarshalObjectID (34 :: utf8 (Hex k) ++ [34]) (.str (Hex k))
      (Article.mk NilObjectID "" "" "").ID = .ok k := by
    unfold unmarshalObjectID
    rw [if_neg hne, if_neg hl]
    exact objectIDFromString_Hex k
  rw [bindJSON_obj]
  unfold strMember
  rw [bindMembers_id _ _ _ _ _ k hid, bindMembers_title, bindMembers]

/-- A body whose id value takes exactly 12 bytes decodes into an article with
these bytes as its identifier, whatever the value is. -/
theorem bindJSON_raw_id (raw : List Nat) (v : Json) (t : String) (hlen : raw.length = 12) :
    bindJSON (.json (.obj [("id", raw, v), strMember "title" t]))
      = .ok ⟨objectIDOfBytes raw, t, "", ""⟩ := by
  have hnull : utf8 "null" = [110, 117, 108, 108] := by decide
  have hne : ¬ (raw = utf8 "null") := by
    rw [hnull]; intro h; rw [h] at hlen; exact absurd hlen (by decide)
  have hid : unmarshalObjectID raw v (Article.mk NilObjectID "" "" "").ID
      = .ok (objectIDOfBytes raw) := by
    unfold unmarshalObjectID
    rw [if_neg hne, if_pos hlen]
  rw [bindJSON_obj]
  unfold strMember
  rw [bindMembers_id _ _ _ _ _ _ hid, bindMembers_title, bindMembers]

/-- C6, as amended. Create stores the article under the identifier of the body
when that identifier is not zero, and under the generated one when it is zero:
with a generated identifier that is not in the collection, a body with a zero
identifier gives 201 and a new document under the generated identifier; a body
with a non-zero identifier that is not in the collection gives 201 and a new
document under the identifier of the body; a body with the identifier of a
stored document gives 500 and changes nothing. The new document carries the
title, content and author of the body in each case. The identifier of a body
is the one its id member decodes to: 24 hexadecimal digits give the identifier
they spell, and a value of exactly 12 bytes gives these bytes. -/
theorem create_uses_body_identifier (gen : ObjectID) (c : Collection) (body : Body) (a : Article)
    (hbody : bindJSON body = .ok a) :
    (a.ID = NilObjectID → (∀ d ∈ c, d._id ≠ gen) →
        createArticle gen c body
          = ⟨⟨StatusCreated, .id gen⟩, c ++ [⟨gen, a.Title, a.Content, a.Author⟩],
              [.InsertOne ⟨none, a.Title, a.Content, a.Author⟩]⟩)
      ∧ (a.ID ≠ NilObjectID → (∀ d ∈ c, d._id ≠ a.ID) →
          createArticle gen c body
            = ⟨⟨StatusCreated, .id a.ID⟩, c ++ [⟨a.ID, a.Title, a.Content, a.Author⟩],
                [.InsertOne ⟨some a.ID, a.Title, a.Content, a.Author⟩]⟩)
      ∧ (a.ID ≠ NilObjectID → (∃ d ∈ c, d._id = a.ID) →
          createArticle gen c body
            = ⟨⟨StatusInternalServerError, .error (.ofStore (.DuplicateKey a.ID))⟩, c,
                [.InsertOne ⟨some a.ID, a.Title, a.Content, a.Author⟩]⟩)
      ∧ (∀ (k : ObjectID) (t : String),
          bindJSON (.json (.obj [strMember "id" (Hex k), strMember "title" t]))
            = .ok ⟨k, t, "", ""⟩)
      ∧ (∀ (raw : List Nat) (v : Json) (t : String), raw.length = 12 →
          bindJSON (.json (.obj [("id", raw, v), strMember "title" t]))
            = .ok ⟨objectIDOfBytes raw, t, "", ""⟩) := by
  rw [createArticle_of_bind gen c body a hbody, marshal_id_getD]
  refine ⟨?_, ?_, ?_, bindJSON_hex_id, bindJSON_raw_id⟩
  · intro hz hfresh
    have hno : ¬ ∃ d ∈ c, d._id = gen := fun ⟨d, hd, h⟩ => hfresh d hd h
    simp [hz, hno, marshal]
  · intro hnz hfresh
    have hno : ¬ ∃ d ∈ c, d._id = a.ID := fun ⟨d, hd, h⟩ => hfresh d hd h
    simp [hnz, hno, marshal]
  · intro hnz hdup
    simp [hnz, hdup, marshal]

theorem create_uses_body_identifier_witness :
    bindJSON (.json (.obj [strMember "id" "000000000000000000000009", strMember "title" "t"]))
        = .ok ⟨9, "t", "", ""⟩
      ∧ createArticle 7 [⟨3, "x", "y", "z"⟩]
          (.json (.obj [strMember "id" "000000000000000000000009", strMember "title" "t"]))
        = ⟨⟨StatusCreated, .id 9⟩, [⟨3, "x", "y", "z"⟩, ⟨9, "t", "", ""⟩],
            [.InsertOne ⟨some 9, "t", "", ""⟩]⟩
      ∧ bindJSON (.json (.obj [strMember "id" "0123456789", strMember "title" "t"]))
        = .ok ⟨0x223031323334353637383922, "t", "", ""⟩
      ∧ createArticle 7 [⟨3, "x", "y", "z"⟩]
          (.json (.obj [strMember "id" "0123456789", strMember "title" "t"]))
        = ⟨⟨StatusCreated, .id 0x223031323334353637383922⟩,
            [⟨3, "x", "y", "z"⟩, ⟨0x223031323334353637383922, "t", "", ""⟩],
            [.InsertOne ⟨some 0x223031323334353637383922, "t", "", ""⟩]⟩
      ∧ bindJSON (.json (.obj [strMember "title" "t"])) = .ok ⟨NilObjectID, "t", "", ""⟩
      ∧ createArticle 7 [⟨3, "x", "y", "z"⟩] (.json (.obj [strMember "title" "t"]))
        = ⟨⟨StatusCreated, .id 7⟩, [⟨3, "x", "y", "z"⟩, ⟨7, "t", "", ""⟩],
            [.InsertOne ⟨none, "t", "", ""⟩]⟩
      ∧ bindJSON (.json (.obj
          [("id", [123, 34, 36, 111, 105, 100, 34, 58, 32, 34, 34, 125],
              .obj [strMember "$oid" ""]), strMember "title" "t"]))
        = .ok ⟨0x7b22246f6964223a2022227d, "t", "", ""⟩
      ∧ bindJSON (.json (.obj
          [("id", [123, 34, 36, 111, 105, 100, 34, 58, 34, 34, 125],
              .obj [strMember "$oid" ""]), strMember "title" "t"]))
        = .ok ⟨NilObjectID, "t", "", ""⟩ :=
  ⟨by decide,
    (create_uses_body_identifier 7 [⟨3, "x", "y", "z"⟩]
      (.json (.obj [strMember "id" "000000000000000000000009", strMember "title" "t"]))
      ⟨9, "t", "", ""⟩ (by decide)).2.1 (by decide) (by decide),
    by decide,
    (create_uses_body_identifier 7 [⟨3, "x", "y", "z"⟩]
      (.json (.obj [strMember "id" "0123456789", strMember "title" "t"]))
      ⟨0x223031323334353637383922, "t", "", ""⟩ (by decide)).2.1 (by decide) (by decide),
    by decide,
    (create_uses_body_identifier 7 [⟨3, "x", "y", "z"⟩] (.json (.obj [strMember "title" "t"]))
      ⟨NilObjectID, "t", "", ""⟩ (by decide)).1 (by decide) (by decide),
    by decide, by decide⟩

/-- C6 as stated fails: two bodies that differ only in their id field, one
with the identifier 9 and one with the identifier 3 of a stored document. The
first is answered 201 with the identifier 9 of the body, not the generated
identifier 7; the second is answered 500 and nothing is stored. -/
theorem create_ignores_body_id_counterexample :
    bindJSON (.json (.obj [strMember "id" "000000000000000000000009", strMember "title" "t"]))
        = .ok ⟨9, "t", "", ""⟩
      ∧ bindJSON (.json (.obj [strMember "id" "000000000000000000000003", strMember "title" "t"]))
        = .ok ⟨3, "t", "", ""⟩
      ∧ createArticle 7 [⟨3, "x", "y", "z"⟩]
          (.json (.obj [strMember "id" "000000000000000000000009", strMember "title" "t"]))
        = ⟨⟨StatusCreated, .id 9⟩, [⟨3, "x", "y", "z"⟩, ⟨9, "t", "", ""⟩],
            [.InsertOne ⟨some 9, "t", "", ""⟩]⟩
      ∧ (createArticle 7 [⟨3, "x", "y", "z"⟩]
          (.json (.obj [strMember "id" "000000000000000000000003", strMember "title" "t"]))).resp.status
        = StatusInternalServerError
      ∧ (createArticle 7 [⟨3, "x", "y", "z"⟩]
          (.json (.obj [strMember "id" "000000000000000000000003", strMember "title" "t"]))).coll
        = [⟨3, "x", "y", "z"⟩] := by
  decide

/-! ## List -/

theorem listArticles_eq (c : Collection) :
    listArticles c = ⟨⟨StatusOK, .articles (c.map Doc.withoutID)⟩, c, [.Find]⟩ := by
  have hproj : ∀ d : Doc,
      (d.toBson.filter fun kv => !(["_id"].contains kv.1)) = d.withoutID := by
    intro d
    simp [Doc.toBson, Doc.withoutID, List.filter]
  simp only [listArticles, Find, hproj]

theorem run_creates_length (reqs : List Request) (c : Collection)
    (hcreates : ∀ r ∈ reqs, r.isCreate = true) :
    (run c reqs).length = c.length + countStatus StatusCreated c reqs := by
  induction reqs generalizing c with
  | nil => simp [run, countStatus]
  | cons r rest ih =>
    have hrest := ih (handle c r).coll (fun q hq => hcreates q (List.mem_cons_of_mem _ hq))
    simp only [run, countStatus, hrest]
    have hr := hcreates r (List.mem_cons_self _ _)
    cases r with
    | Create gen body =>
      simp only [handle]
      cases hbind : bindJSON body with
      | error err => simp [createArticle, hbind]
      | ok a =>
        have hc := createArticle_of_bind gen c body a hbind
        by_cases hex : ∃ d ∈ c, d._id = (marshal a)._id.getD gen
        · rw [if_pos hex] at hc
          simp [hc]
        · rw [if_neg hex] at hc
          simp [hc]
          omega
    | Get id => simp [Request.isCreate] at hr
    | List => simp [Request.isCreate] at hr
    | Update id body => simp [Request.isCreate] at hr
    | Delete id => simp [Request.isCreate] at hr

/-- C5. After any sequence of Create requests on the empty collection, List
answers 200 with one entry per stored document, carrying the title, content
and author of that document; the number of entries is the number of Create
requests that were answered 201; no entry has an `_id` field; and List leaves
the collection as it was. -/
theorem list_after_creates (reqs : List Request) (hcreates : ∀ r ∈ reqs, r.isCreate = true) :
    (listArticles (run [] reqs)).resp
        = ⟨StatusOK, .articles ((run [] reqs).map Doc.withoutID)⟩
      ∧ ((run [] reqs).map Doc.withoutID).length = countStatus StatusCreated [] reqs
      ∧ (∀ entry ∈ (run [] reqs).map Doc.withoutID, ∀ kv ∈ entry, kv.1 ≠ "_id")
      ∧ (listArticles (run [] reqs)).coll = run [] reqs := by
  rw [listArticles_eq]
  refine ⟨rfl, ?_, ?_, rfl⟩
  · rw [List.length_map, run_creates_length reqs [] hcreates]
    simp
  · intro entry hentry kv hkv
    obtain ⟨d, _, rfl⟩ := List.mem_map.1 hentry
    simp only [Doc.withoutID, List.mem_cons, List.mem_singleton, List.not_mem_nil, or_false] at hkv
    rcases hkv with rfl | rfl | rfl <;> simp

theorem list_after_creates_witness :
    (∀ r ∈ [Request.Create 7 (.json (.obj [strMember "title" "t"])),
          Request.Create 8 (.malformed "unexpected EOF"),
          Request.Create 9 (.json (.obj [strMember "Title" "u", strMember "author" "w"]))],
        r.isCreate = true)
      ∧ countStatus StatusCreated []
          [Request.Create 7 (.json (.obj [strMember "title" "t"])),
            Request.Create 8 (.malformed "unexpected EOF"),
            Request.Create 9 (.json (.obj [strMember "Title" "u", strMember "author" "w"]))] = 2
      ∧ (listArticles (run []
          [Request.Create 7 (.json (.obj [strMember "title" "t"])),
            Request.Create 8 (.malformed "unexpected EOF"),
            Request.Create 9 (.json (.obj [strMember "Title" "u", strMember "author" "w"]))])).resp
          = ⟨StatusOK, .articles
              [[("title", .string "t"), ("content", .string ""), ("author", .string "")],
               [("title", .string "u"), ("content", .string ""), ("author", .string "w")]]⟩ :=
  have h := list_after_creates
    [Request.Create 7 (.json (.obj [strMember "title" "t"])),
      Request.Create 8 (.malformed "unexpected EOF"),
      Request.Create 9 (.json (.obj [strMember "Title" "u", strMember "author" "w"]))]
    (by decide)
  ⟨by decide, by decide, h.1.trans (by decide)⟩

/-! ## Reachable collections and malformed paths -/

theorem NoZero_of_frame (id : ObjectID) (c c' : Collection) (hz : c.NoZero)
    (h : List.Forall₂ (fun d d' => d'._id = d._id ∧ (d._id ≠ id → d' = d)) c c') :
    c'.NoZero := by
  have hids := map_id_of_frame id c c' h
  intro d hd hzero
  have hin : d._id ∈ c.map Doc._id := by
    rw [← hids]; exact List.mem_map_of_mem _ hd
  obtain ⟨e, he, heq⟩ := List.mem_map.1 hin
  exact hz e he (heq.trans hzero)

/-- A request keeps the zero identifier out of the collection, provided the
identifier generated for a create request is not zero. -/
theorem handle_NoZero (c : Collection) (r : Request) (hz : c.NoZero)
    (hgen : gensNonZero [r] = true) : (handle c r).coll.NoZero := by
  cases r with
  | Create gen body =>
    have hg : gen ≠ NilObjectID := by simpa [gensNonZero] using hgen
    simp only [handle]
    cases hbind : bindJSON body with
    | error err => simpa [createArticle, hbind] using hz
    | ok a =>
      have hc := createArticle_of_bind gen c body a hbind
      by_cases hex : ∃ d ∈ c, d._id = (marshal a)._id.getD gen
      · rw [if_pos hex] at hc
        rw [hc]; exact hz
      · rw [if_neg hex] at hc
        rw [hc]
        intro d hd
        rcases List.mem_append.1 hd with hold | hnew
        · exact hz d hold
        · rw [List.mem_singleton] at hnew
          rw [hnew, marshal_id_getD]
          show (if a.ID = NilObjectID then gen else a.ID) ≠ NilObjectID
          split
          · exact hg
          · assumption
  | Get id =>
    simp only [handle, getArticle]
    cases FindOne c (ObjectIDFromHex id).1 <;> exact hz
  | List =>
    simp only [handle, listArticles_eq]
    exact hz
  | Update id body =>
    exact NoZero_of_frame _ c _ hz (updateArticle_frame c id body)
  | Delete id =>
    obtain ⟨n, c', hdel, hsub⟩ := DeleteOne_sublist c (ObjectIDFromHex id).1
    simp only [handle, deleteArticle, hdel]
    exact fun d hd => hz d (hsub.subset hd)

theorem run_NoZero (reqs : List Request) (c : Collection) (hz : c.NoZero)
    (hgen : gensNonZero reqs = true) : (run c reqs).NoZero := by
  induction reqs generalizing c with
  | nil => exact hz
  | cons r rest ih =>
    have hsplit : gensNonZero [r] = true ∧ gensNonZero rest = true := by
      cases r <;> simp_all [gensNonZero]
    exact ih (handle c r).coll (handle_NoZero c r hz hsplit.1) hsplit.2

/-- C10. In a collection reached from the empty one by any sequence of
requests, the driver generating non-zero identifiers, no document has the zero
identifier, a zero identifier of a Create body being left out of the inserted
document. So for a path that is not 24 hexadecimal digits, which the handlers
read as the zero identifier, Get answers 404, Update leaves the collection as
it was and answers 200 with a count of 0 when its body decodes, and Delete
answers 200 with a count of 0 and leaves the collection as it was. -/
theorem malformed_path_reaches_no_article (reqs : List Request) (id : String) (body : Body)
    (hgen : gensNonZero reqs = true) (hbad : ¬ IsHexID id) :
    (run [] reqs).NoZero
      ∧ (∀ a : Article, a.ID = NilObjectID → (marshal a)._id = none)
      ∧ (ObjectIDFromHex id).1 = NilObjectID
      ∧ getArticle (run [] reqs) id
          = ⟨⟨StatusNotFound, .error (.text "Article not found")⟩, run [] reqs, [.FindOne NilObjectID]⟩
      ∧ (updateArticle (run [] reqs) id body).coll = run [] reqs
      ∧ (∀ a, bindJSON body = .ok a →
          (updateArticle (run [] reqs) id body).resp = ⟨StatusOK, .updated 0⟩)
      ∧ deleteArticle (run [] reqs) id
          = ⟨⟨StatusOK, .deleted 0⟩, run [] reqs, [.DeleteOne NilObjectID]⟩ := by
  have hz : (run [] reqs).NoZero := run_NoZero reqs [] (fun d hd => by simp at hd) hgen
  have hnil := ObjectIDFromHex_malformed id hbad
  have hmiss : ∀ d ∈ run [] reqs, d._id ≠ (ObjectIDFromHex id).1 := by
    rw [hnil]; exact hz
  refine ⟨hz, ?_, hnil, ?_, ?_, ?_, ?_⟩
  · intro a ha
    simp [marshal, ha]
  · rw [get_not_found_aux _ id hmiss, hnil]
  · cases hbind : bindJSON body with
    | error err => simp only [updateArticle, hbind]
    | ok a => simp only [updateArticle, hbind, UpdateOne_no_match _ _ (marshal a) hmiss]
  · intro a hbind
    simp only [updateArticle, hbind, UpdateOne_no_match _ _ (marshal a) hmiss]
  · have hdel := DeleteOne_no_match _ _ hmiss
    rw [hnil] at hdel
    simp only [deleteArticle, hnil, hdel]

theorem malformed_path_reaches_no_article_witness :
    gensNonZero
        [Request.Create 7 (.json (.obj [strMember "id" "000000000000000000000000", strMember "title" "t"])),
          Request.Update "oops" (.json (.obj [strMember "title" "u"])),
          Request.Create 8 (.json (.obj [strMember "id" "", strMember "title" "v"])),
          Request.Delete "000000000000000000000008"] = true
      ∧ ¬ IsHexID "00000000000000000000000g"
      ∧ run []
          [Request.Create 7 (.json (.obj [strMember "id" "000000000000000000000000", strMember "title" "t"])),
            Request.Update "oops" (.json (.obj [strMember "title" "u"])),
            Request.Create 8 (.json (.obj [strMember "id" "", strMember "title" "v"])),
            Request.Delete "000000000000000000000008"] = [⟨7, "t", "", ""⟩]
      ∧ (run []
          [Request.Create 7 (.json (.obj [strMember "id" "000000000000000000000000", strMember "title" "t"])),
            Request.Update "oops" (.json (.obj [strMember "title" "u"])),
            Request.Create 8 (.json (.obj [strMember "id" "", strMember "title" "v"])),
            Request.Delete "000000000000000000000008"]).NoZero :=
  have h := malformed_path_reaches_no_article
    [Request.Create 7 (.json (.obj [strMember "id" "000000000000000000000000", strMember "title" "t"])),
      Request.Update "oops" (.json (.obj [strMember "title" "u"])),
      Request.Create 8 (.json (.obj [strMember "id" "", strMember "title" "v"])),
      Request.Delete "000000000000000000000008"]
    "00000000000000000000000g" (.json (.obj [strMember "title" "w"])) (by decide) (by decide)
  ⟨by decide, by decide, by decide, h.1⟩

end MongoArticle
